import Mathlib

/-!
Verification development for the StGit patch-stack manager excerpt
(`src/stack/mod.rs`, `src/error.rs`, `src/cmd/commit.rs`, `src/cmd/refresh.rs`).

The Rust code is shallowly embedded: repository state (trees, index,
worktree, references) is modelled with explicit data, fallible operations
return `Except`, and stateful operations thread the state explicitly.
Each definition mirrors the corresponding source function; external
collaborators (libgit2 primitives, the transaction engine, the patch-edit
pipeline) are modelled from their documented semantics or taken as
function parameters.
-/

/-- Object ids are modelled as naturals. -/
abbrev Oid := Nat

/-- Patch names are modelled as plain strings (`PatchName` wraps a `String`
in the source). -/
abbrev PatchName := String

/-- Repository-relative paths. -/
abbrev FPath := String

/-- Mirror of the `Error` enum in `src/error.rs`, restricted to the variants
exercised by the embedded code.  `Git` stands for the `Git(git2::Error)`
variant produced by the `#[from]` conversion of underlying libgit2 errors;
`NoAppliedPatches` comes from the stack module's command-facing error type
(used by `src/cmd/commit.rs` and `src/cmd/refresh.rs`). -/
inductive StgError where
  | Git (msg : String)
  | HeadDetached
  | HeadNotBranch (name : String)
  | BranchNotFound (name : String)
  | InvalidBranchName (name : String)
  | StackNotInitialized (branch : String)
  | StackAlreadyInitialized (branch : String)
  | NonUtf8BranchName (name : String)
  | OutstandingConflicts
  | StackTopHeadMismatch
  | DirtyIndex
  | DirtyWorktree
  | ActiveRepositoryState (mode : String)
  | Transaction
  | NoAppliedPatches
deriving DecidableEq, Repr

/-- Decidable equality for `Except`, used to evaluate concrete runs. -/
def exceptDecEq {ε α : Type} [DecidableEq ε] [DecidableEq α] :
    DecidableEq (Except ε α) := fun a b =>
  match a, b with
  | .ok x, .ok y =>
    if h : x = y then isTrue (by rw [h])
    else isFalse (by intro hh; cases hh; exact h rfl)
  | .error x, .error y =>
    if h : x = y then isTrue (by rw [h])
    else isFalse (by intro hh; cases hh; exact h rfl)
  | .ok _, .error _ => isFalse (by intro hh; cases hh)
  | .error _, .ok _ => isFalse (by intro hh; cases hh)

instance {ε α : Type} [DecidableEq ε] [DecidableEq α] :
    DecidableEq (Except ε α) := exceptDecEq

/-- Mirror of `git2::RepositoryState` (the VCS mode reported by
`repo.state()`). -/
inductive RepoStateM where
  | Clean
  | Merge
  | Revert
  | RevertSequence
  | CherryPick
  | CherryPickSequence
  | Bisect
  | Rebase
  | RebaseInteractive
  | RebaseMerge
  | ApplyMailbox
  | ApplyMailboxOrRebase
deriving DecidableEq, Repr

/-- Embedding of `repo_state_to_str` in `src/stack/mod.rs`. -/
def repoStateToStr : RepoStateM → String
  | .Clean => "clean"
  | .Merge => "merge"
  | .Revert => "revert"
  | .RevertSequence => "revert"
  | .CherryPick => "cherry-pick"
  | .CherryPickSequence => "cherry-pick"
  | .Bisect => "bisect"
  | .Rebase => "rebase"
  | .RebaseInteractive => "interactive rebase"
  | .RebaseMerge => "rebase merge"
  | .ApplyMailbox => "apply mailbox"
  | .ApplyMailboxOrRebase => "rebase or apply mailbox"

/-- Embedding of `Stack::check_repository_state` in `src/stack/mod.rs`:
match on the repository mode; `Clean` is accepted, `Merge` is accepted
exactly when `conflicts_okay`, every other mode yields
`ActiveRepositoryState` naming the mode. -/
def checkRepositoryState (state : RepoStateM) (conflictsOkay : Bool) :
    Except StgError Unit :=
  match state with
  | .Clean => .ok ()
  | .Merge => if conflictsOkay then .ok () else .error .OutstandingConflicts
  | s => .error (.ActiveRepositoryState (repoStateToStr s))

/-- Embedding of `Stack::is_head_top` in `src/stack/mod.rs`: compares the
recorded stack-state head with the branch tip commit id
(`self.state.head == self.head_commit()?.id()`). -/
def isHeadTop (stateHead branchTip : Oid) : Bool :=
  stateHead == branchTip

/-- Embedding of `Stack::check_head_top_mismatch` in `src/stack/mod.rs`,
kept exactly as written there: it returns the `StackTopHeadMismatch` error
when `is_head_top` is TRUE (branch tip equals the recorded head) and `Ok`
when it is false.  The error's own message ("HEAD and stack top are not
the same") documents the opposite, inverted sense. -/
def checkHeadTopMismatch (stateHead branchTip : Oid) : Except StgError Unit :=
  if isHeadTop stateHead branchTip then
    .error .StackTopHeadMismatch
  else
    .ok ()

/-- Model of the repository content visible to the status queries: the
HEAD commit's tree, the index entries, the worktree files (each a finite
path-to-blob map), and the set of conflicted paths recorded in the index. -/
structure StatusRepo where
  headTree : List (FPath × Nat)
  index : List (FPath × Nat)
  worktree : List (FPath × Nat)
  conflicts : List FPath
deriving DecidableEq, Repr

/-- Lookup of a path in a tree/index/worktree listing. -/
def lookupEntry (t : List (FPath × Nat)) (p : FPath) : Option Nat :=
  (t.find? (fun e => e.1 == p)).map (fun e => e.2)

/-- Paths at which two path-to-blob maps differ (additions, deletions and
modifications); this is the generic diff underlying git status sets. -/
def changedPaths (t1 t2 : List (FPath × Nat)) : List FPath :=
  ((t1.map (fun e => e.1)) ++ (t2.map (fun e => e.1))).dedup.filter
    (fun p => decide (lookupEntry t1 p ≠ lookupEntry t2 p))

/-- The index status set: paths where the index differs from the HEAD tree
(git status with `StatusShow::Index`). -/
def statusIndexSet (r : StatusRepo) : List FPath :=
  changedPaths r.headTree r.index

/-- The worktree status set: paths where the worktree differs from the
index (git status with `StatusShow::Workdir`; the `update_index(true)`
option in the source only refreshes stat caches and does not change the
set). -/
def statusWorkdirSet (r : StatusRepo) : List FPath :=
  changedPaths r.index r.worktree

/-- Union of the two status sets (git status with
`StatusShow::IndexAndWorkdir`). -/
def statusIndexAndWorkdirSet (r : StatusRepo) : List FPath :=
  (statusIndexSet r ++ statusWorkdirSet r).dedup

/-- Embedding of `Stack::check_index_clean` in `src/stack/mod.rs`, kept
exactly as written there: it tests `self.repo.index()?.is_empty()`, i.e.
whether the index has NO ENTRIES AT ALL, not whether the index differs
from HEAD. -/
def checkIndexClean (r : StatusRepo) : Except StgError Unit :=
  if r.index.isEmpty then .ok () else .error .DirtyIndex

/-- Embedding of `Stack::check_worktree_clean` in `src/stack/mod.rs`:
queries the worktree status set and errors when it is non-empty. -/
def checkWorktreeClean (r : StatusRepo) : Except StgError Unit :=
  if (statusWorkdirSet r).isEmpty then .ok () else .error .DirtyWorktree

/-- C1: the claim says `check_head_top_mismatch` returns `Ok` when the
branch tip equals the recorded head and fails with `StackTopHeadMismatch`
exactly when they differ.  The code does the opposite: on the consistent
stack (head = tip = 1) it fails with `StackTopHeadMismatch`, and on the
mismatched stack (head 1, tip 2) it returns `Ok`. -/
theorem c1_head_top_divergence :
    checkHeadTopMismatch 1 1 = .error .StackTopHeadMismatch ∧
    checkHeadTopMismatch 1 2 = .ok () := by
  constructor <;> rfl

/-- C3: the claim says `check_index_clean` fails with `DirtyIndex` exactly
when the index-vs-HEAD status set is non-empty.  On a repository with one
committed file whose index entry matches HEAD, that status set is empty,
yet the code fails with `DirtyIndex` because the index entry list is
non-empty; meanwhile `check_worktree_clean` (which does query its status
set) accepts the same repository. -/
theorem c3_index_clean_divergence :
    statusIndexSet (StatusRepo.mk [("f", 1)] [("f", 1)] [("f", 1)] []) = [] ∧
    checkIndexClean (StatusRepo.mk [("f", 1)] [("f", 1)] [("f", 1)] []) =
      .error .DirtyIndex ∧
    checkWorktreeClean (StatusRepo.mk [("f", 1)] [("f", 1)] [("f", 1)] []) =
      .ok () := by
  refine ⟨by decide, by decide, by decide⟩

/-- C8: `check_repository_state(conflicts_okay)` returns `Ok` when the
repository mode is clean, returns `Ok` for mode merge exactly when
`conflicts_okay` is true, and for every mode other than clean and merge
fails with `ActiveRepositoryState` naming that mode. -/
theorem c8_check_repository_state (s : RepoStateM) (conflictsOkay : Bool) :
    (checkRepositoryState s conflictsOkay = .ok () ↔
      (s = .Clean ∨ (s = .Merge ∧ conflictsOkay = true))) ∧
    (s ≠ .Clean → s ≠ .Merge →
      checkRepositoryState s conflictsOkay =
        .error (.ActiveRepositoryState (repoStateToStr s))) := by
  cases s <;> cases conflictsOkay <;>
    simp [checkRepositoryState, repoStateToStr]

/-- Witness for C8 at a concrete mode: rebase is neither clean nor merge,
so the check fails naming the "rebase" mode. -/
theorem c8_check_repository_state_witness :
    checkRepositoryState .Rebase true =
      .error (.ActiveRepositoryState (repoStateToStr .Rebase)) :=
  (c8_check_repository_state .Rebase true).2 (by decide) (by decide)

/-- Modelled from the spec: the `StackState` value type lives in
`src/stack/state.rs`, which is not part of the excerpt.  Per the spec it
is an immutable snapshot of applied/unapplied/hidden patch-name sequences,
a head commit-id, and an optional previous-state commit-id. -/
structure StackStateM where
  applied : List PatchName
  unapplied : List PatchName
  hidden : List PatchName
  head : Oid
  prev : Option Oid
deriving DecidableEq, Repr

/-- Modelled from the spec: `StackState::new(head)` (used by
`Stack::initialize`) builds the empty state at the given head, with no
previous state. -/
def StackStateM.new (head : Oid) : StackStateM :=
  { applied := [], unapplied := [], hidden := [], head := head, prev := none }

/-- Modelled from the spec: `StackState::advance_head(new_head, prev_state)`
yields a new snapshot with updated head and prev pointer (spec section 4.2). -/
def StackStateM.advanceHead (s : StackStateM) (newHead prevStateId : Oid) :
    StackStateM :=
  { s with head := newHead, prev := some prevStateId }

/-- Where the repository HEAD points: a local branch, a detached commit, or
some other (non-branch) reference. -/
inductive HeadM where
  | onBranch (name : String)
  | detached (oid : Oid)
  | otherRef (name : String) (oid : Oid)
deriving DecidableEq, Repr

/-- Model of the repository pieces touched by stack initialization and
state advancement: local branches, HEAD, the reference store, and an
append-only object store of stack-state commits (`nextOid` is the id the
next written commit receives). -/
structure GitRepoM where
  branches : List (String × Oid)
  head : HeadM
  refs : List (String × Oid)
  nextOid : Oid
  objects : List (Oid × StackStateM)
deriving DecidableEq, Repr

/-- Lookup of a reference (or branch) by name. -/
def lookupRef (refs : List (String × Oid)) (name : String) : Option Oid :=
  (refs.find? (fun r => r.1 == name)).map (fun r => r.2)

/-- Update a reference in place if present, otherwise append it. -/
def setRef (refs : List (String × Oid)) (name : String) (oid : Oid) :
    List (String × Oid) :=
  if (refs.find? (fun r => r.1 == name)).isSome then
    refs.map (fun r => if r.1 == name then (r.1, oid) else r)
  else
    refs ++ [(name, oid)]

/-- Embedding of `state_refname_from_branch_name` in `src/stack/mod.rs`. -/
def stateRefNameOf (branchShorthand : String) : String :=
  "refs/stacks/" ++ branchShorthand

/-- Modelled from the spec: `StackState::commit(repo, refname?, message)`
(in the missing `src/stack/state.rs`) writes the state snapshot as a new
commit object in the object store, creates/updates the named reference to
it when a refname is given, and returns the new commit id.  The commit
message itself is not observable to the claims and is left out. -/
def commitState (state : StackStateM) (repo : GitRepoM)
    (refname : Option String) : Oid × GitRepoM :=
  let oid := repo.nextOid
  let refs := match refname with
    | some n => setRef repo.refs n oid
    | none => repo.refs
  (oid,
    { repo with
        nextOid := oid + 1
        objects := (oid, state) :: repo.objects
        refs := refs })

/-- Message carried by the libgit2 error produced when a matched reference
update finds a current value different from the expected one. -/
def casFailMsg : String := "old reference value does not match"

/-- Modelled from libgit2 semantics: `Repository::reference_matching(name,
oid, force, expected_id, log_message)` updates the reference to `oid` only
if its current value equals `expected_id` (a compare-and-swap); on a
mismatch it returns a `git2::Error`, which `src/error.rs` converts to the
`Error::Git` variant via `#[from]`.  With `force = true` (as in
`advance_state`) no fast-forward restriction applies.  The reflog message
is not observable to the claims and is left out. -/
def referenceMatching (refs : List (String × Oid)) (name : String)
    (newOid expected : Oid) : Except StgError (List (String × Oid)) :=
  if lookupRef refs name = some expected then
    .ok (setRef refs name newOid)
  else
    .error (.Git casFailMsg)

/-- Embedding of `Stack::advance_state` in `src/stack/mod.rs`: build the
advanced state, write it as a new state commit, then update the metadata
reference with `reference_matching` keyed on `prev_state`.  The resulting
repository is returned in both outcomes (the state commit object is
written either way; the reference changes only when the CAS matches).
The `message`/`reflog_msg` arguments only select the reflog text and are
not observable here. -/
def advanceState (repo : GitRepoM) (stateRefName : String)
    (state : StackStateM) (newHead prevState : Oid) :
    GitRepoM × Except StgError (StackStateM × Oid) :=
  let state' := state.advanceHead newHead prevState
  let (stateCommitOid, repo') := commitState state' repo none
  match referenceMatching repo'.refs stateRefName stateCommitOid prevState with
  | .ok refs' => ({ repo' with refs := refs' }, .ok (state', stateCommitOid))
  | .error e => (repo', .error e)

/-- Embedding of `get_branch` in `src/stack/mod.rs`, reduced to the name
resolution the claims need: an explicit name must be a local branch
(else `BranchNotFound`); with no name, a detached HEAD fails with
`HeadDetached`, a HEAD on a non-branch reference fails with
`HeadNotBranch`, and otherwise the checked-out branch is returned.
(The `InvalidBranchName` and non-UTF-8 paths are not reachable in the
model, where names are plain strings.) -/
def getBranch (repo : GitRepoM) (branchName : Option String) :
    Except StgError String :=
  match branchName with
  | some name =>
    if (lookupRef repo.branches name).isSome then .ok name
    else .error (.BranchNotFound name)
  | none =>
    match repo.head with
    | .detached _ => .error .HeadDetached
    | .onBranch b => .ok b
    | .otherRef n _ => .error (.HeadNotBranch n)

/-- The commit id obtained by `repo.head()?.peel_to_commit()?`: the tip of
the checked-out branch, or the detached/other-ref commit. -/
def headCommitOid (repo : GitRepoM) : Except StgError Oid :=
  match repo.head with
  | .onBranch b =>
    match lookupRef repo.branches b with
    | some o => .ok o
    | none => .error (.Git "reference not found")
  | .detached o => .ok o
  | .otherRef _ o => .ok o

/-- Embedding of `Stack::initialize` in `src/stack/mod.rs`: resolve the
branch, refuse when the metadata reference already exists, and otherwise
write the empty state — note the source takes the head commit from
`repo.head()`, not from the resolved branch. -/
def initStack (repo : GitRepoM) (branchName : Option String) :
    GitRepoM × Except StgError (String × StackStateM) :=
  match getBranch repo branchName with
  | .error e => (repo, .error e)
  | .ok bname =>
    let refname := stateRefNameOf bname
    if (lookupRef repo.refs refname).isSome then
      (repo, .error (.StackAlreadyInitialized bname))
    else
      match headCommitOid repo with
      | .error e => (repo, .error e)
      | .ok h =>
        let st := StackStateM.new h
        let (_, repo') := commitState st repo (some refname)
        (repo', .ok (bname, st))

/-- Concrete repository for the C2 counterexample: the metadata reference
currently points at 5, while the caller's expected previous state is 7. -/
def c2Repo : GitRepoM :=
  { branches := [("main", 9)]
    head := .onBranch "main"
    refs := [("refs/stacks/main", 5)]
    nextOid := 100
    objects := [] }

/-- C2 counterexample: when the compare-and-swap in `advance_state` fails,
the returned error is the propagated `Git` error, NOT the `Transaction`
error claimed ("Command aborted (all changes rolled back)"); the claim as
stated is therefore false at this input. -/
theorem c2_cas_error_counterexample :
    (advanceState c2Repo "refs/stacks/main" (StackStateM.new 9) 42 7).2 =
      .error (.Git casFailMsg) ∧
    (advanceState c2Repo "refs/stacks/main" (StackStateM.new 9) 42 7).2 ≠
      .error .Transaction := by
  refine ⟨by decide, by decide⟩

/-- C2 as amended: `advance_state` writes a new state commit and updates
the metadata reference only by a compare-and-swap keyed on
`prev_state_id`; whenever that compare-and-swap fails it returns the
propagated `Git` error (not `Transaction`) with the metadata reference
left unchanged, and when the CAS matches it moves the reference to the
newly written state commit. -/
theorem c2_advance_state_amended (repo : GitRepoM) (name : String)
    (state : StackStateM) (newHead prevState : Oid) :
    (lookupRef repo.refs name ≠ some prevState →
      (advanceState repo name state newHead prevState).2 =
        .error (.Git casFailMsg) ∧
      (advanceState repo name state newHead prevState).1.refs = repo.refs) ∧
    (lookupRef repo.refs name = some prevState →
      (advanceState repo name state newHead prevState).2 =
        .ok (state.advanceHead newHead prevState, repo.nextOid) ∧
      (advanceState repo name state newHead prevState).1.refs =
        setRef repo.refs name repo.nextOid) := by
  constructor
  · intro hne
    simp only [advanceState, commitState, referenceMatching]
    rw [if_neg hne]
    exact ⟨rfl, rfl⟩
  · intro heq
    simp only [advanceState, commitState, referenceMatching]
    rw [if_pos heq]
    exact ⟨rfl, rfl⟩

/-- Witness for C2's amended theorem: a matching CAS advances the
reference to the new state commit. -/
theorem c2_advance_state_amended_witness :
    (advanceState c2Repo "refs/stacks/main" (StackStateM.new 9) 42 5).2 =
      .ok ((StackStateM.new 9).advanceHead 42 5, c2Repo.nextOid) ∧
    (advanceState c2Repo "refs/stacks/main" (StackStateM.new 9) 42 5).1.refs =
      setRef c2Repo.refs "refs/stacks/main" c2Repo.nextOid :=
  (c2_advance_state_amended c2Repo "refs/stacks/main" (StackStateM.new 9)
    42 5).2 (by decide)

/-- Concrete repository for the C4 counterexample: HEAD is on branch
`main` at commit 1 while branch `other` sits at commit 2; neither stack is
initialized. -/
def c4Repo : GitRepoM :=
  { branches := [("main", 1), ("other", 2)]
    head := .onBranch "main"
    refs := []
    nextOid := 50
    objects := [] }

/-- C4 counterexample: initializing the stack of the explicitly named
branch `other` succeeds but records head 1 — the commit at the repository
HEAD — even though the resolved branch `other` has tip 2, so the written
state head is NOT the tip of the resolved branch as claimed. -/
theorem c4_init_counterexample :
    (initStack c4Repo (some "other")).2 =
      .ok ("other", StackStateM.new 1) ∧
    lookupRef c4Repo.branches "other" = some 2 ∧
    (StackStateM.new 1).head ≠ 2 := by
  refine ⟨by decide, by decide, by decide⟩

/-- C4 as amended: `Stack::initialize` fails with
`StackAlreadyInitialized` when the metadata reference for the resolved
branch already exists, and otherwise writes an empty stack state whose
head is the commit at the repository HEAD (this coincides with the
resolved branch tip when the branch argument is absent or names the
checked-out branch, but not when an explicit name differs from HEAD). -/
theorem c4_init_amended (repo : GitRepoM) (arg : Option String)
    (bname : String) (h : Oid)
    (hb : getBranch repo arg = .ok bname) :
    ((lookupRef repo.refs (stateRefNameOf bname)).isSome = true →
      (initStack repo arg).2 = .error (.StackAlreadyInitialized bname)) ∧
    (lookupRef repo.refs (stateRefNameOf bname) = none →
      headCommitOid repo = .ok h →
      (initStack repo arg).2 = .ok (bname, StackStateM.new h) ∧
      (StackStateM.new h).applied = [] ∧
      (StackStateM.new h).unapplied = [] ∧
      (StackStateM.new h).hidden = [] ∧
      (StackStateM.new h).head = h ∧
      lookupRef (initStack repo arg).1.refs (stateRefNameOf bname) =
        some repo.nextOid ∧
      ((initStack repo arg).1.objects.find?
        (fun o => o.1 == repo.nextOid)).map (fun o => o.2) =
        some (StackStateM.new h)) := by
  constructor
  · intro hsome
    simp only [initStack, hb, hsome, if_true]
  · intro hnone hhead
    have hfindnone :
        repo.refs.find? (fun r => r.1 == stateRefNameOf bname) = none := by
      cases hf : repo.refs.find? (fun r => r.1 == stateRefNameOf bname) with
      | none => rfl
      | some r => simp [lookupRef, hf] at hnone
    have hlook :
        lookupRef (repo.refs ++ [(stateRefNameOf bname, repo.nextOid)])
          (stateRefNameOf bname) = some repo.nextOid := by
      simp [lookupRef, List.find?_append, hfindnone]
    simp only [initStack, hb, hnone, hhead, commitState, setRef, hfindnone,
      Option.isSome_none, Bool.false_eq_true, if_false]
    simp [hlook, StackStateM.new]

/-- Witness for C4's amended theorem, at a fresh repository on branch
`main` at commit 1. -/
theorem c4_init_amended_witness :
    (initStack c4Repo none).2 = .ok ("main", StackStateM.new 1) ∧
    lookupRef (initStack c4Repo none).1.refs (stateRefNameOf "main") =
      some c4Repo.nextOid :=
  ⟨((c4_init_amended c4Repo none "main" 1 (by decide)).2 (by decide)
      (by decide)).1,
    ((c4_init_amended c4Repo none "main" 1 (by decide)).2 (by decide)
      (by decide)).2.2.2.2.2.1⟩

/-- The data of a patch's commit that the commit command inspects: the
commit's tree id and its first parent's tree id
(`patch_commit.tree_id()` and `patch_commit.parent(0)?.tree_id()`). -/
structure PatchCommitM where
  parentTreeId : Nat
  treeId : Nat
deriving DecidableEq, Repr

/-- The loaded stack as seen by `src/cmd/commit.rs`: applied and unapplied
patch sequences, the patch-name to commit map, and the recorded
head/branch-tip pair consulted by `check_head_top_mismatch`. -/
structure CommitStackM where
  applied : List PatchName
  unapplied : List PatchName
  patches : List (PatchName × PatchCommitM)
  stateHead : Oid
  branchTip : Oid
deriving DecidableEq, Repr

/-- Lookup in the stack's patch map (`get_patch_commit`). -/
def lookupPatchC (s : CommitStackM) (pn : PatchName) : Option PatchCommitM :=
  (s.patches.find? (fun e => e.1 == pn)).map (fun e => e.2)

/-- A selected patch is empty when its commit's tree equals its first
parent's tree (`patch_commit.tree_id() == parent.tree_id()` in
`src/cmd/commit.rs`).  Selection only ever produces names present in the
stack, so the `none` fallback is unreachable there. -/
def isEmptyPatch (s : CommitStackM) (pn : PatchName) : Bool :=
  match lookupPatchC s pn with
  | some c => c.treeId == c.parentTreeId
  | none => false

/-- Embedding of `Iterator::position` on an equality predicate: the index
of the first occurrence of `p` in `l` (length of `l` when absent; the
source unwraps, and patchrange parsing guarantees presence there). -/
def idxIn (l : List PatchName) (p : PatchName) : Nat :=
  match l with
  | [] => 0
  | x :: xs => if x = p then 0 else idxIn xs p + 1

/-- The `applied_and_unapplied` sequence: applied patches followed by
unapplied patches. -/
def appliedAndUnapplied (s : CommitStackM) : List PatchName :=
  s.applied ++ s.unapplied

/-- Embedding of the explicit-patch-list sorting in `src/cmd/commit.rs`
(`requested_patches.sort_unstable_by_key(position in applied_and_unapplied)`).
Distinct patch names have distinct positions, so the result of the
unstable Rust sort is the unique key-sorted permutation; it is embedded
with insertion sort on the same key. -/
def sortRequested (s : CommitStackM) (req : List PatchName) : List PatchName :=
  List.insertionSort
    (fun a b => idxIn (appliedAndUnapplied s) a ≤ idxIn (appliedAndUnapplied s) b)
    req

/-- Command-line inputs of `stg commit` relevant to the model: the parsed
explicit patch list (the result of `patchrange::parse`, when patch
arguments were given), the `-n` count, and the `--all` / `--allow-empty`
flags.  Clap makes `patchranges`/`number`/`all` mutually exclusive, which
the match order in `commitRun` reflects exactly as the source does. -/
structure CommitMatches where
  patchranges : Option (List PatchName)
  number : Option Nat
  all : Bool
  allowEmpty : Bool
deriving DecidableEq, Repr

/-- How a run of the commit command ends on the success path: `earlyOk`
is the `return Ok(())` taken for `-n 0` before any transaction is set up,
`committed ps` means the run reached `setup_transaction` with `ps` as the
patch list handed to `commit_patches`. -/
inductive CommitOutcome where
  | earlyOk
  | committed (patches : List PatchName)
deriving DecidableEq, Repr

/-- Errors surfaced by the commands: ad-hoc `anyhow!` message strings or
typed stack errors. -/
inductive RunError where
  | anyhowMsg (msg : String)
  | stg (e : StgError)
deriving DecidableEq, Repr

/-- Embedding of the empty-patch guard in `src/cmd/commit.rs` (lines
123-143): unless `--allow-empty`, collect the selected patches whose tree
equals their parent's tree; with exactly one, the message names it; with
two or more, the message reports only their number. -/
def emptyPatchGuard (s : CommitStackM) (patches : List PatchName)
    (allowEmpty : Bool) : Option String :=
  if allowEmpty then none
  else
    match patches.filter (fun pn => isEmptyPatch s pn) with
    | [] => none
    | [p] =>
      some ("Attempt to commit empty patch `" ++ p ++
        "`; use --allow-empty to override")
    | es =>
      some ("Attempt to commit " ++ toString es.length ++
        " empty patches; use `--allow-empty` to override")

/-- The tail of the commit command after the empty-patch guard: the
head/top check (kept with the source's inverted sense) and then the
transaction hand-off. -/
def commitAfterGuard (s : CommitStackM) (patches : List PatchName) :
    Except RunError CommitOutcome :=
  match checkHeadTopMismatch s.stateHead s.branchTip with
  | .error e => .error (.stg e)
  | .ok _ => .ok (.committed patches)

/-- Guard stage of the commit command followed by its tail. -/
def commitGuardAndGo (s : CommitStackM) (allowEmpty : Bool)
    (patches : List PatchName) : Except RunError CommitOutcome :=
  match emptyPatchGuard s patches allowEmpty with
  | some msg => .error (.anyhowMsg msg)
  | none => commitAfterGuard s patches

/-- Embedding of `run` in `src/cmd/commit.rs`: select the patch list
(explicit ranges sorted by stack position / `-n` count / `--all` /
default bottommost), run the empty-patch guard, the head/top check, and
hand the list to the transaction. -/
def commitRun (s : CommitStackM) (m : CommitMatches) :
    Except RunError CommitOutcome :=
  match m.patchranges with
  | some req => commitGuardAndGo s m.allowEmpty (sortRequested s req)
  | none =>
    match m.number with
    | some n =>
      if n = 0 then .ok .earlyOk
      else if s.applied.length < n then
        .error (.anyhowMsg ("There are not `" ++ toString n ++
          "` applied patches to commit"))
      else commitGuardAndGo s m.allowEmpty (s.applied.take n)
    | none =>
      match s.applied with
      | [] => .error (.stg .NoAppliedPatches)
      | p :: _ =>
        if m.all then commitGuardAndGo s m.allowEmpty s.applied
        else commitGuardAndGo s m.allowEmpty [p]

/-- Whether the character list `n` is an initial segment of `h`. -/
def leadsList : List Char → List Char → Bool
  | [], _ => true
  | _ :: _, [] => false
  | a :: as, b :: bs => a == b && leadsList as bs

/-- Whether the character list `n` occurs contiguously inside `h`. -/
def occursList (n : List Char) : List Char → Bool
  | [] => n.isEmpty
  | b :: bs => leadsList n (b :: bs) || occursList n bs

/-- Whether `needle` occurs as a substring of `haystack`. -/
def occursIn (needle haystack : String) : Bool :=
  occursList needle.toList haystack.toList

/-- Concrete stack for the C5 counterexample: two applied patches `xq` and
`zr`, both with tree equal to their parent tree (both empty). -/
def c5Stack : CommitStackM :=
  { applied := ["xq", "zr"]
    unapplied := []
    patches := [("xq", ⟨7, 7⟩), ("zr", ⟨7, 7⟩)]
    stateHead := 3
    branchTip := 3 }

/-- C5 counterexample: committing the two empty patches `xq` and `zr`
without `--allow-empty` fails, but the message reports only the count of
empty patches — neither patch name occurs in it — so the failure message
does not list the empty patches as claimed. -/
theorem c5_empty_message_counterexample :
    commitRun c5Stack ⟨some ["xq", "zr"], none, false, false⟩ =
      .error (.anyhowMsg
        "Attempt to commit 2 empty patches; use `--allow-empty` to override") ∧
    occursIn "xq"
      "Attempt to commit 2 empty patches; use `--allow-empty` to override"
      = false ∧
    occursIn "zr"
      "Attempt to commit 2 empty patches; use `--allow-empty` to override"
      = false := by
  refine ⟨by decide, by decide, by decide⟩

/-- C5 as amended: unless `--allow-empty`, commit fails whenever some
selected patch's tree equals its first parent's tree; the failure message
names the empty patch when exactly one is empty and otherwise reports
only the number of empty patches; with `--allow-empty`, or when no
selected patch is empty, the guard does not fire and the run proceeds to
the post-guard stage. -/
theorem c5_empty_guard_amended (s : CommitStackM) (req : List PatchName)
    (ae : Bool) :
    (((sortRequested s req).filter (fun pn => isEmptyPatch s pn) = [] ∨
        ae = true) →
      commitRun s ⟨some req, none, false, ae⟩ =
        commitAfterGuard s (sortRequested s req)) ∧
    (ae = false → ∀ p,
      (sortRequested s req).filter (fun pn => isEmptyPatch s pn) = [p] →
      commitRun s ⟨some req, none, false, ae⟩ =
        .error (.anyhowMsg ("Attempt to commit empty patch `" ++ p ++
          "`; use --allow-empty to override"))) ∧
    (ae = false →
      2 ≤ ((sortRequested s req).filter (fun pn => isEmptyPatch s pn)).length →
      commitRun s ⟨some req, none, false, ae⟩ =
        .error (.anyhowMsg ("Attempt to commit " ++
          toString ((sortRequested s req).filter
            (fun pn => isEmptyPatch s pn)).length ++
          " empty patches; use `--allow-empty` to override"))) := by
  refine ⟨?_, ?_, ?_⟩
  · intro hcase
    cases hcase with
    | inl hnil =>
      simp only [commitRun, commitGuardAndGo, emptyPatchGuard, hnil]
      cases ae <;> rfl
    | inr hae =>
      subst hae
      simp only [commitRun, commitGuardAndGo, emptyPatchGuard, if_true]
  · intro hae p hp
    subst hae
    simp only [commitRun, commitGuardAndGo, emptyPatchGuard, hp]
    rfl
  · intro hae hlen
    subst hae
    simp only [commitRun, commitGuardAndGo, emptyPatchGuard]
    cases hf : (sortRequested s req).filter (fun pn => isEmptyPatch s pn) with
    | nil => rw [hf] at hlen; simp at hlen
    | cons p rest =>
      cases rest with
      | nil => rw [hf] at hlen; simp at hlen
      | cons q rest' => rfl

/-- Witness for C5's amended theorem: a single empty patch `xq` is named
in the failure message. -/
theorem c5_empty_guard_amended_witness :
    commitRun c5Stack ⟨some ["xq"], none, false, false⟩ =
      .error (.anyhowMsg
        "Attempt to commit empty patch `xq`; use --allow-empty to override") :=
  (c5_empty_guard_amended c5Stack ["xq"] false).2.1 rfl "xq" (by decide)

/-- C10: `commit -n 0` returns success immediately (before any
transaction is set up — outcome `earlyOk` is produced before the guard,
the head/top check, and `setup_transaction`, and the selection phase
performs no repository mutation), for every stack including one with no
applied patches; and `commit -n N` with `N` greater than the number of
applied patches fails with the "There are not ..." error rather than
clamping `N`. -/
theorem c10_number_zero_and_overflow (s : CommitStackM) (allFlag ae : Bool)
    (n : Nat) :
    commitRun s ⟨none, some 0, allFlag, ae⟩ = .ok .earlyOk ∧
    (s.applied.length < n →
      commitRun s ⟨none, some n, allFlag, ae⟩ =
        .error (.anyhowMsg ("There are not `" ++ toString n ++
          "` applied patches to commit"))) := by
  constructor
  · rfl
  · intro hlt
    have hne : n ≠ 0 := by
      intro h0
      rw [h0] at hlt
      exact Nat.not_lt_zero _ hlt
    simp only [commitRun]
    rw [if_neg hne, if_pos hlt]

/-- Witness for C10 on the empty stack: `-n 0` succeeds immediately and
`-n 1` overflows the zero applied patches. -/
theorem c10_number_zero_and_overflow_witness :
    commitRun ⟨[], [], [], 0, 0⟩ ⟨none, some 0, false, false⟩ =
      .ok .earlyOk ∧
    commitRun ⟨[], [], [], 0, 0⟩ ⟨none, some 1, false, false⟩ =
      .error (.anyhowMsg "There are not `1` applied patches to commit") :=
  ⟨(c10_number_zero_and_overflow ⟨[], [], [], 0, 0⟩ false false 1).1,
    (c10_number_zero_and_overflow ⟨[], [], [], 0, 0⟩ false false 1).2
      (by decide)⟩

/-- Positions in a list identify its members: two members of `l` with the
same first-occurrence index are equal. -/
theorem idxIn_inj : ∀ (l : List PatchName) (a b : PatchName), a ∈ l → b ∈ l →
    idxIn l a = idxIn l b → a = b := by
  intro l
  induction l with
  | nil => intro a b ha _ _; simp at ha
  | cons x xs ih =>
    intro a b ha hb heq
    by_cases hxa : x = a
    · by_cases hxb : x = b
      · rw [← hxa, ← hxb]
      · rw [show idxIn (x :: xs) a = 0 by simp [idxIn, hxa]] at heq
        rw [show idxIn (x :: xs) b = idxIn xs b + 1 by simp [idxIn, hxb]] at heq
        simp at heq
    · by_cases hxb : x = b
      · rw [show idxIn (x :: xs) a = idxIn xs a + 1 by simp [idxIn, hxa]] at heq
        rw [show idxIn (x :: xs) b = 0 by simp [idxIn, hxb]] at heq
        simp at heq
      · rw [show idxIn (x :: xs) a = idxIn xs a + 1 by simp [idxIn, hxa]] at heq
        rw [show idxIn (x :: xs) b = idxIn xs b + 1 by simp [idxIn, hxb]] at heq
        have ha' : a ∈ xs := by
          cases List.mem_cons.mp ha with
          | inl h => exact absurd h.symm hxa
          | inr h => exact h
        have hb' : b ∈ xs := by
          cases List.mem_cons.mp hb with
          | inl h => exact absurd h.symm hxb
          | inr h => exact h
        exact ih a b ha' hb' (Nat.succ_injective heq)

/-- A list without duplicates is strictly increasing with respect to the
first-occurrence index of its own elements. -/
theorem pairwise_idxIn_lt : ∀ (l : List PatchName), l.Nodup →
    l.Pairwise (fun a b => idxIn l a < idxIn l b) := by
  intro l
  induction l with
  | nil => intro _; exact List.Pairwise.nil
  | cons x xs ih =>
    intro hnd
    rw [List.nodup_cons] at hnd
    obtain ⟨hx, hnds⟩ := hnd
    constructor
    · intro y hy
      have hyx : ¬ x = y := fun h => hx (h ▸ hy)
      simp [idxIn, hyx]
    · refine (ih hnds).imp_of_mem ?_
      intro a b ha hb hlt
      have hxa : ¬ x = a := fun h => hx (h ▸ ha)
      have hxb : ¬ x = b := fun h => hx (h ▸ hb)
      simp only [idxIn, if_neg hxa, if_neg hxb]
      exact Nat.succ_lt_succ hlt

/-- Two lists that are permutations of each other, whose images under a
key function agree positionally, and whose elements the key separates,
are equal. -/
theorem listEqOfPermOfMapEq {α : Type} (k : α → Nat) (l1 : List α) :
    ∀ (l2 : List α), l1.Perm l2 → l1.map k = l2.map k →
    (∀ a ∈ l1, ∀ b ∈ l2, k a = k b → a = b) → l1 = l2 := by
  induction l1 with
  | nil =>
    intro l2 hp _ _
    exact hp.nil_eq
  | cons a t ih =>
    intro l2 hp hm hinj
    cases l2 with
    | nil =>
      cases hp.eq_nil
    | cons b t2 =>
      simp only [List.map_cons, List.cons.injEq] at hm
      obtain ⟨hk, hmt⟩ := hm
      have hab : a = b := hinj a (by simp) b (by simp) hk
      subst hab
      have hpt : t.Perm t2 := hp.cons_inv
      have htail : t = t2 :=
        ih t2 hpt hmt
          (fun x hx y hy hxy =>
            hinj x (List.mem_cons_of_mem a hx) y (List.mem_cons_of_mem a hy)
              hxy)
      rw [htail]

/-- C9: for every explicit patch list given to commit, the list actually
committed is the requested patches sorted into the order in which they
occur in the concatenation of the applied sequence followed by the
unapplied sequence — equivalently, the filter of that concatenation to
the requested set — regardless of the order in which the user named
them. -/
theorem c9_explicit_list_order (s : CommitStackM) (req : List PatchName)
    (hnd : (appliedAndUnapplied s).Nodup) (hrd : req.Nodup)
    (hsub : ∀ p ∈ req, p ∈ appliedAndUnapplied s) :
    sortRequested s req =
      (appliedAndUnapplied s).filter (fun p => decide (p ∈ req)) := by
  have hA_perm : (sortRequested s req).Perm req :=
    List.perm_insertionSort _ req
  have hBnd :
      ((appliedAndUnapplied s).filter (fun p => decide (p ∈ req))).Nodup :=
    hnd.filter _
  have hB_perm :
      ((appliedAndUnapplied s).filter (fun p => decide (p ∈ req))).Perm req := by
    rw [List.perm_ext_iff_of_nodup hBnd hrd]
    intro a
    simp only [List.mem_filter, decide_eq_true_eq]
    exact ⟨fun h => h.2, fun h => ⟨hsub a h, h⟩⟩
  have hAB : (sortRequested s req).Perm
      ((appliedAndUnapplied s).filter (fun p => decide (p ∈ req))) :=
    hA_perm.trans hB_perm.symm
  haveI : IsTotal PatchName
      (fun a b => idxIn (appliedAndUnapplied s) a ≤
        idxIn (appliedAndUnapplied s) b) :=
    ⟨fun a b => Nat.le_total _ _⟩
  haveI : IsTrans PatchName
      (fun a b => idxIn (appliedAndUnapplied s) a ≤
        idxIn (appliedAndUnapplied s) b) :=
    ⟨fun _ _ _ => Nat.le_trans⟩
  have hsortA : (sortRequested s req).Pairwise
      (fun a b => idxIn (appliedAndUnapplied s) a ≤
        idxIn (appliedAndUnapplied s) b) :=
    List.sorted_insertionSort _ req
  have hsortB : ((appliedAndUnapplied s).filter
      (fun p => decide (p ∈ req))).Pairwise
      (fun a b => idxIn (appliedAndUnapplied s) a <
        idxIn (appliedAndUnapplied s) b) :=
    (pairwise_idxIn_lt _ hnd).sublist (List.filter_sublist _)
  have hmapA : ((sortRequested s req).map
      (fun p => idxIn (appliedAndUnapplied s) p)).Pairwise
      (fun a b : Nat => a ≤ b) :=
    List.pairwise_map.mpr hsortA
  have hmapB : (((appliedAndUnapplied s).filter
      (fun p => decide (p ∈ req))).map
      (fun p => idxIn (appliedAndUnapplied s) p)).Pairwise
      (fun a b : Nat => a ≤ b) :=
    List.pairwise_map.mpr (hsortB.imp (fun h => Nat.le_of_lt h))
  have hmapeq : (sortRequested s req).map
      (fun p => idxIn (appliedAndUnapplied s) p) =
      ((appliedAndUnapplied s).filter (fun p => decide (p ∈ req))).map
        (fun p => idxIn (appliedAndUnapplied s) p) :=
    List.eq_of_perm_of_sorted
      (hAB.map (fun p => idxIn (appliedAndUnapplied s) p)) hmapA hmapB
  refine listEqOfPermOfMapEq (fun p => idxIn (appliedAndUnapplied s) p) _ _
    hAB hmapeq ?_
  intro a ha b hb hk
  have haL : a ∈ appliedAndUnapplied s := hsub a (hA_perm.mem_iff.mp ha)
  have hbL : b ∈ appliedAndUnapplied s := (List.mem_filter.mp hb).1
  exact idxIn_inj _ a b haL hbL hk

/-- Witness for C9: the user names `c` before `a`, but the committed list
is `[a, c]`, following the applied-then-unapplied order `[a, b, c]`. -/
theorem c9_explicit_list_order_witness :
    sortRequested ⟨["a", "b"], ["c"], [], 0, 1⟩ ["c", "a"] =
      (appliedAndUnapplied ⟨["a", "b"], ["c"], [], 0, 1⟩).filter
        (fun p => decide (p ∈ ["c", "a"])) :=
  c9_explicit_list_order ⟨["a", "b"], ["c"], [], 0, 1⟩ ["c", "a"]
    (by decide) (by decide) (by decide)

/-- The error message of the cleanliness rule in `determine_refresh_paths`
(`src/cmd/refresh.rs`). -/
def dirtyIndexMsg : String :=
  "The index is dirty; consider using `--index` or `--force`"

/-- The candidate refresh paths computed by `determine_refresh_paths`
before its guards: the `IndexAndWorkdir` status set, intersected with the
pathspecs when given, and further intersected with the target patch's
diff paths (patch tree vs. its parent tree) when a patch commit is
given.  Pathspec matching is modelled as membership in the normalized
path list (pathspec normalization is an external collaborator). -/
def refreshPathsOf (r : StatusRepo) (pathspecs : Option (List FPath))
    (patchTrees : Option (List (FPath × Nat) × List (FPath × Nat))) :
    List FPath :=
  let rp0 := statusIndexAndWorkdirSet r
  let rp1 := match pathspecs with
    | some ps => rp0.filter (fun p => decide (p ∈ ps))
    | none => rp0
  match patchTrees with
  | some (parentTree, patchTree) =>
    rp1.filter (fun p => decide (p ∈ changedPaths parentTree patchTree))
  | none => rp1

/-- Embedding of `determine_refresh_paths` in `src/cmd/refresh.rs`: compute
the candidate paths, fail with `OutstandingConflicts` when a conflicted
path is among them, and then — unless `force` — fail with the dirty-index
message when the index status set and the worktree status set are both
non-empty.  The function only queries repository state; it mutates
nothing.  (Submodule exclusion is not modelled: the model repository has
no submodules.) -/
def determineRefreshPaths (r : StatusRepo) (pathspecs : Option (List FPath))
    (patchTrees : Option (List (FPath × Nat) × List (FPath × Nat)))
    (force : Bool) : Except RunError (List FPath) :=
  let rp := refreshPathsOf r pathspecs patchTrees
  if r.conflicts.any (fun c => rp.contains c) then
    .error (.stg .OutstandingConflicts)
  else if !force && !(statusIndexSet r).isEmpty &&
      !(statusWorkdirSet r).isEmpty then
    .error (.anyhowMsg dirtyIndexMsg)
  else
    .ok rp

/-- Embedding of `Index::update_all(paths)` as used by
`assemble_refresh_tree`: for each selected path, the index entry is
updated to the worktree content, or removed when the file is gone from
the worktree; untracked paths are not added. -/
def updateAllIndex (index worktree : List (FPath × Nat))
    (paths : List FPath) : List (FPath × Nat) :=
  (index.filter (fun e =>
      decide (¬(e.1 ∈ paths ∧ lookupEntry worktree e.1 = none)))).map
    (fun e =>
      if e.1 ∈ paths then
        match lookupEntry worktree e.1 with
        | some v => (e.1, v)
        | none => e
      else e)

/-- Embedding of the non-`--index` arm of `assemble_refresh_tree` in
`src/cmd/refresh.rs`, up to the point the claims observe: it first calls
`determine_refresh_paths` on the untouched repository and propagates its
error without mutating anything; only on success does it update the
default index for the selected paths.  (Tree writing and the pre-commit
hook are external collaborators past this point.) -/
def assembleRefreshTree (r : StatusRepo) (pathspecs : Option (List FPath))
    (patchTrees : Option (List (FPath × Nat) × List (FPath × Nat)))
    (force : Bool) : StatusRepo × Except RunError (List FPath) :=
  match determineRefreshPaths r pathspecs patchTrees force with
  | .error e => (r, .error e)
  | .ok rp =>
    ({ r with index := updateAllIndex r.index r.worktree rp }, .ok rp)

/-- C6: unless `--force`, refresh fails with the dirty-index message
("The index is dirty; consider using `--index` or `--force`", the flags
rendered with backquotes in the source) whenever both the index status
set and the worktree status set are non-empty, and this failure leaves
the repository untouched — `determine_refresh_paths` runs before any
mutation of index, worktree or stack state; when at most one of the two
is dirty, refresh proceeds, as it always does under `--force`.  The
hypothesis records that the earlier conflict guard of the same function
does not fire. -/
theorem c6_dirty_index_guard (r : StatusRepo)
    (pathspecs : Option (List FPath))
    (patchTrees : Option (List (FPath × Nat) × List (FPath × Nat)))
    (hconf : r.conflicts.any
      (fun c => (refreshPathsOf r pathspecs patchTrees).contains c) = false) :
    ((statusIndexSet r ≠ [] ∧ statusWorkdirSet r ≠ []) →
      assembleRefreshTree r pathspecs patchTrees false =
        (r, .error (.anyhowMsg dirtyIndexMsg))) ∧
    ((statusIndexSet r = [] ∨ statusWorkdirSet r = []) →
      (assembleRefreshTree r pathspecs patchTrees false).2 =
        .ok (refreshPathsOf r pathspecs patchTrees)) ∧
    ((assembleRefreshTree r pathspecs patchTrees true).2 =
      .ok (refreshPathsOf r pathspecs patchTrees)) := by
  refine ⟨?_, ?_, ?_⟩
  · intro hboth
    have hi : (statusIndexSet r).isEmpty = false := by
      cases hv : statusIndexSet r with
      | nil => exact absurd hv hboth.1
      | cons a l => rfl
    have hw : (statusWorkdirSet r).isEmpty = false := by
      cases hv : statusWorkdirSet r with
      | nil => exact absurd hv hboth.2
      | cons a l => rfl
    simp only [assembleRefreshTree, determineRefreshPaths, hconf, hi, hw,
      Bool.not_false, Bool.not_true, Bool.false_and, Bool.and_self,
      Bool.true_and, Bool.and_true, Bool.false_eq_true, if_false, if_true]
  · intro hone
    have hguard : (!false && !(statusIndexSet r).isEmpty &&
        !(statusWorkdirSet r).isEmpty) = false := by
      cases hone with
      | inl h => simp [h]
      | inr h => simp [h]
    simp only [assembleRefreshTree, determineRefreshPaths, hconf, hguard,
      Bool.false_eq_true, if_false]
  · have hguard : (!true && !(statusIndexSet r).isEmpty &&
        !(statusWorkdirSet r).isEmpty) = false := by
      simp
    simp only [assembleRefreshTree, determineRefreshPaths, hconf, hguard,
      Bool.false_eq_true, if_false]

/-- Witness for C6: with one file changed in the index (HEAD blob 1,
index blob 2) and also changed in the worktree (blob 3), the refresh
pipeline fails with the dirty-index message and returns the repository
unchanged. -/
theorem c6_dirty_index_guard_witness :
    assembleRefreshTree (StatusRepo.mk [("f", 1)] [("f", 2)] [("f", 3)] [])
        none none false =
      (StatusRepo.mk [("f", 1)] [("f", 2)] [("f", 3)] [],
        .error (.anyhowMsg dirtyIndexMsg)) :=
  (c6_dirty_index_guard (StatusRepo.mk [("f", 1)] [("f", 2)] [("f", 3)] [])
    none none (by decide)).1 ⟨by decide, by decide⟩

/-- The stack as staged inside a transaction (`trans` in
`src/cmd/refresh.rs`): applied and unapplied sequences and the
patch-name-to-commit map.  The transaction engine itself lives outside
the excerpt; its operations used below are modelled from the spec. -/
structure TransStateM where
  applied : List PatchName
  unapplied : List PatchName
  patches : List (PatchName × PatchCommitM)
deriving DecidableEq, Repr

/-- Lookup in the staged patch map (`trans.get_patch_commit`). -/
def lookupPatchT (ts : TransStateM) (pn : PatchName) : Option PatchCommitM :=
  (ts.patches.find? (fun e => e.1 == pn)).map (fun e => e.2)

/-- Modelled from the spec: `pop_patches` on a single named patch removes
it from `applied` and prepends it to `unapplied` (spec section 4.4); the
patch keeps its commit. -/
def popSingle (ts : TransStateM) (pn : PatchName) : TransStateM :=
  { ts with
      applied := ts.applied.filter (fun p => !(p == pn))
      unapplied := pn :: ts.unapplied }

/-- Modelled from the spec: `update_patch` replaces the commit associated
with an existing patch. -/
def updatePatchT (ts : TransStateM) (pn : PatchName) (c : PatchCommitM) :
    TransStateM :=
  { ts with
      patches := ts.patches.map (fun e => if e.1 == pn then (pn, c) else e) }

/-- Modelled from the spec: `rename_patch` updates the name in place in
whichever sequence holds it and in the patch map. -/
def renamePatchT (ts : TransStateM) (old new : PatchName) : TransStateM :=
  { applied := ts.applied.map (fun p => if p == old then new else p)
    unapplied := ts.unapplied.map (fun p => if p == old then new else p)
    patches := ts.patches.map (fun e => if e.1 == old then (new, e.2) else e) }

/-- Modelled from the spec: `delete_patches` on a single named patch
removes it from whichever sequence holds it and from the patch map. -/
def deletePatchT (ts : TransStateM) (pn : PatchName) : TransStateM :=
  { applied := ts.applied.filter (fun p => !(p == pn))
    unapplied := ts.unapplied.filter (fun p => !(p == pn))
    patches := ts.patches.filter (fun e => !(e.1 == pn)) }

/-- Embedding of the unapplied-target arm of the refresh transaction
closure (`src/cmd/refresh.rs` lines 269-327): pop the temporary patch,
then attempt the three-way merge in a temporary index with base = the
temporary commit's parent tree, ours = the target patch's tree, theirs =
the temporary commit's tree.  On success the edit pipeline produces the
new commit (possibly renamed) for the target and the temporary patch is
deleted; on conflict (`merge` returns `none`) nothing further changes.
The merge (`apply_treediff_to_index` in a temporary index file) and the
edit pipeline are external collaborators passed as functions.  Returns
the staged state and the `absorb_success` flag. -/
def refreshAbsorbUnapplied (merge : Nat → Nat → Nat → Option Nat)
    (edit : Nat → PatchName × PatchCommitM) (ts : TransStateM)
    (patchname temp : PatchName) : TransStateM × Bool :=
  let ts1 := popSingle ts temp
  match lookupPatchT ts1 patchname, lookupPatchT ts1 temp with
  | some patchCommit, some tempCommit =>
    let base := tempCommit.parentTreeId
    let ours := patchCommit.treeId
    let theirs := tempCommit.treeId
    match merge base ours theirs with
    | some treeId =>
      let (newName, newCommit) := edit treeId
      let ts2 := updatePatchT ts1 patchname newCommit
      let ts3 := if newName == patchname then ts2
        else renamePatchT ts2 patchname newName
      (deletePatchT ts3 temp, true)
    | none => (ts1, false)
  | _, _ => (ts1, false)

/-- The message printed when the temporary patch could not be absorbed
(`src/cmd/refresh.rs` lines 332-338). -/
def didNotApplyMsg (patchname temp : PatchName) : String :=
  "The new changes did not apply cleanly to " ++ patchname ++
    ". They were saved in " ++ temp ++ "."

/-- The tail of `run` in `src/cmd/refresh.rs` for an unapplied target:
run the absorb attempt inside the transaction (the closure returns `Ok`
in both arms, so a merge conflict is not an error), and print the
did-not-apply message exactly when absorption failed.  Returns the staged
state and the printed lines. -/
def runRefreshUnapplied (merge : Nat → Nat → Nat → Option Nat)
    (edit : Nat → PatchName × PatchCommitM) (ts : TransStateM)
    (patchname temp : PatchName) :
    Except RunError (TransStateM × List String) :=
  let (ts', absorbed) := refreshAbsorbUnapplied merge edit ts patchname temp
  .ok (ts', if absorbed then [] else [didNotApplyMsg patchname temp])

/-- C7: when the refresh target patch is unapplied and the three-way merge
in the temporary index (base = the temporary commit's parent tree, ours =
the target patch's tree, theirs = the temporary commit's tree) produces
conflicts, refresh returns success rather than an error, the temporary
patch remains in the stack (popped to unapplied, commit intact), the
target patch's commit is unchanged, and the did-not-apply message is
printed. -/
theorem c7_unapplied_conflict (merge : Nat → Nat → Nat → Option Nat)
    (edit : Nat → PatchName × PatchCommitM) (ts : TransStateM)
    (patchname temp : PatchName) (patchCommit tempCommit : PatchCommitM)
    (hp : lookupPatchT ts patchname = some patchCommit)
    (ht : lookupPatchT ts temp = some tempCommit)
    (hmerge : merge tempCommit.parentTreeId patchCommit.treeId
      tempCommit.treeId = none) :
    runRefreshUnapplied merge edit ts patchname temp =
      .ok (popSingle ts temp, [didNotApplyMsg patchname temp]) ∧
    lookupPatchT (popSingle ts temp) temp = some tempCommit ∧
    temp ∈ (popSingle ts temp).unapplied ∧
    lookupPatchT (popSingle ts temp) patchname = some patchCommit := by
  have hp1 : lookupPatchT (popSingle ts temp) patchname = some patchCommit := hp
  have ht1 : lookupPatchT (popSingle ts temp) temp = some tempCommit := ht
  refine ⟨?_, ht1, ?_, hp1⟩
  · simp only [runRefreshUnapplied, refreshAbsorbUnapplied, hp1, ht1, hmerge]
    rfl
  · simp [popSingle]

/-- Witness for C7: target `p2` is unapplied, the temporary patch
`refresh-temp` sits on top, and the merge reports conflicts; the run
succeeds, keeps both commits, and prints the message. -/
theorem c7_unapplied_conflict_witness :
    runRefreshUnapplied (fun _ _ _ => none) (fun t => ("p2", ⟨0, t⟩))
        ⟨["p1", "refresh-temp"], ["p2"],
          [("p1", ⟨0, 1⟩), ("p2", ⟨0, 2⟩), ("refresh-temp", ⟨1, 3⟩)]⟩
        "p2" "refresh-temp" =
      .ok (popSingle
        ⟨["p1", "refresh-temp"], ["p2"],
          [("p1", ⟨0, 1⟩), ("p2", ⟨0, 2⟩), ("refresh-temp", ⟨1, 3⟩)]⟩
        "refresh-temp", [didNotApplyMsg "p2" "refresh-temp"]) :=
  (c7_unapplied_conflict (fun _ _ _ => none) (fun t => ("p2", ⟨0, t⟩))
    ⟨["p1", "refresh-temp"], ["p2"],
      [("p1", ⟨0, 1⟩), ("p2", ⟨0, 2⟩), ("refresh-temp", ⟨1, 3⟩)]⟩
    "p2" "refresh-temp" ⟨0, 2⟩ ⟨1, 3⟩ (by decide) (by decide) rfl).1
